import Mathlib

/-!
# Verification of the OCR glyph-matching module (`utilities/ocr.py`)

Shallow embedding of the two public entry points `extract_text` and
`find_text` of the repository's OCR module, together with models of the
external collaborators they consume:

* `cv2.matchTemplate` + `np.where(correlation >= 0.98)` are modelled as an
  abstract detection oracle (`Matcher.locate`) guarded by OpenCV's documented
  size contract (the template must be no larger than the search image;
  OpenCV swaps the arguments when the "image" fits inside the "template" in
  both dimensions, and raises `cv2.error` otherwise).
* `rect.screenshot()` and `clr.isolate_colors` are abstract functions of an
  environment (`Env`).
* Python strings are modelled as `List Char`; Python exceptions as `Except`.
* The Python `dict` font is modelled as an association list in insertion
  order (`Font`), matching `dict` iteration order.
-/

namespace OCR

/-- A grayscale image (`cv2.Mat`): a list of pixel rows.  `shape[:2]` of a
`cv2.Mat` is `(height, width)`. -/
structure Img where
  data : List (List Nat)
deriving DecidableEq, Repr

/-- Number of rows, `shape[0]`. -/
def Img.height (i : Img) : Nat := i.data.length

/-- Number of columns, `shape[1]`. -/
def Img.width (i : Img) : Nat := (i.data.headD []).length

/-- A detection `[key, x, y]`: one located occurrence of glyph `c` whose
top-left corner is at image-local `(x, y)`. -/
structure Detection where
  c : Char
  x : Nat
  y : Nat
deriving DecidableEq, Repr

/-- The Python-level exceptions that the embedded code can raise. -/
inductive PyError where
  /-- `cv2.error`: assertion failure inside `cv2.matchTemplate`. -/
  | cvError
  /-- `AttributeError`: e.g. a `list` object has no `replace` method. -/
  | attributeError
  /-- `IndexError`: sequence index out of range (also `""[-1]`). -/
  | indexError
  /-- `KeyError`: dict lookup of a missing key. -/
  | keyError
deriving DecidableEq, Repr

/-- Abstract model of the correlation thresholding pipeline
`zip(x_mins, y_mins)` where `y_mins, x_mins = np.where(corr >= 0.98)`:
given a search image and a template, the list of `(x, y)` positions whose
normalized correlation score reaches the 0.98 threshold.  Kept abstract
because the claims depend only on which positions are produced, not on the
floating-point correlation values. -/
structure Matcher where
  locate : Img → Img → List (Nat × Nat)

/-- Model of `cv2.matchTemplate`'s size contract (OpenCV `templmatch.cpp`):
the template must be no greater than the source image; if instead the image
fits inside the template in both dimensions OpenCV swaps the two arguments;
in the remaining (mixed) case it raises `cv2.error`. On success the
detections are produced by the abstract `Matcher`. -/
def cvMatchPositions (m : Matcher) (image templ : Img) :
    Except PyError (List (Nat × Nat)) :=
  if templ.height ≤ image.height && templ.width ≤ image.width then
    .ok (m.locate image templ)
  else if image.height ≤ templ.height && image.width ≤ templ.width then
    .ok (m.locate templ image)
  else
    .error .cvError

/-- A font: the Python `dict` mapping characters to glyph templates,
modelled as an association list in insertion order. -/
abbrev Font := List (Char × Img)

/-- `font[c]` as an `Option`: first binding of key `c`. -/
def lookupFont (f : Font) (c : Char) : Option Img :=
  (f.find? (fun kv => kv.1 == c)).map (fun kv => kv.2)

/-- The `Rectangle(left, top, width, height)` geometry object. Fields are
integers (Python `int` arithmetic can go negative). -/
structure Rect where
  left : Int
  top : Int
  width : Int
  height : Int
deriving DecidableEq, Repr

/-- Abstract color filter argument (`Union[Color, List[Color]]`); opaque to
the OCR core. -/
structure ColorSpec where
  tag : Nat
deriving DecidableEq, Repr

/-- The external collaborators: screenshotting a region and isolating
colors, plus the correlation matcher. -/
structure Env where
  matcher : Matcher
  screenshot : Rect → Img
  isolate : Img → ColorSpec → Img

/-- The image actually searched:
`clr.isolate_colors(rect.screenshot(), color)`. -/
def filteredImage (env : Env) (rect : Rect) (color : ColorSpec) : Img :=
  env.isolate (env.screenshot rect) color

/-- The sort key comparison `key=itemgetter(2, 1)`: lexicographic on
`(y, x)`, as a total boolean preorder. -/
def detLe (a b : Detection) : Bool :=
  a.y < b.y || (a.y == b.y && a.x ≤ b.x)

/-- `detLe` as a decidable relation, for `List.insertionSort`. -/
def detle (a b : Detection) : Prop := detLe a b = true

instance : DecidableRel detle := fun a b => by
  unfold detle; infer_instance

/-- `sorted(char_list, key=itemgetter(2, 1))`: Python's `sorted` is a
stable sort, and the output of a stable sort under a total preorder is
uniquely determined by the key order and the input order, so any stable
sort models it; `List.insertionSort` is the stable sort of the library
that is structurally recursive (hence evaluable by the kernel). -/
def sortDetections (l : List Detection) : List Detection :=
  l.insertionSort detle

/-- The character-collection loop of `extract_text`: for each `key` of the
font, skipping `" "` and excluded characters, template-match and extend
`char_list` with one detection per located position.  An exception from
`cv2.matchTemplate` propagates. -/
def extractLoop (m : Matcher) (image : Img) (exclude : List Char) :
    Font → Except PyError (List Detection)
  | [] => .ok []
  | (key, templ) :: rest =>
    if key = ' ' ∨ key ∈ exclude then extractLoop m image exclude rest
    else do
      let pos ← cvMatchPositions m image templ
      let tailDets ← extractLoop m image exclude rest
      pure (pos.map (fun p => ⟨key, p.1, p.2⟩) ++ tailDets)

/-- `extract_text(rect, font, color, exclude_chars)`: screenshot and
color-isolate the region, collect detections for every non-space,
non-excluded glyph, sort them by `(y, x)`, and join the characters.  The
returned string is modelled as a `List Char`. -/
def extract_text (env : Env) (rect : Rect) (font : Font) (color : ColorSpec)
    (exclude_chars : List Char) : Except PyError (List Char) := do
  let image := filteredImage env rect color
  let char_list ← extractLoop env.matcher image exclude_chars font
  pure ((sortDetections char_list).map Detection.c)

/-- The `Union[str, List[str]]` argument of `find_text`. -/
inductive Targets where
  | one (s : List Char)
  | many (ss : List (List Char))
deriving DecidableEq, Repr

/-- `"".join(text)`: a string joins to itself, a list of strings to their
concatenation. -/
def joinTargets : Targets → List Char
  | .one s => s
  | .many ss => ss.flatten

/-- `"".join(set("".join(text))).replace(" ", "")`: the distinct characters
of the targets without spaces.  Python's `set` iteration order is not
specified; first-occurrence order is used here (no claim depends on this
order). -/
def targetChars (t : Targets) : List Char :=
  ((joinTargets t).eraseDups).filter (fun c => c ≠ ' ')

/-- `text = text.replace(char, "")`: on a string, removes every occurrence
of the character; a Python `list` has no `replace` method, so on a list it
raises `AttributeError`. -/
def stripChar (c : Char) : Targets → Except PyError Targets
  | .one s => .ok (.one (s.filter (fun a => a ≠ c)))
  | .many _ => .error .attributeError

/-- The per-character loop of `find_text`: for each distinct target
character, look the template up in the font; on `KeyError` strip the
character from `text` and record the printed diagnostic, otherwise
template-match and extend `char_list`.  Returns the (possibly reduced)
targets, the pooled detections, and the omitted characters in diagnostic
order. -/
def findCharsLoop (m : Matcher) (image : Img) (font : Font) :
    List Char → Targets → Except PyError (Targets × List Detection × List Char)
  | [], text => .ok (text, [], [])
  | c :: rest, text =>
    match lookupFont font c with
    | none => do
        let text2 ← stripChar c text
        let (t, dets, omitted) ← findCharsLoop m image font rest text2
        pure (t, dets, c :: omitted)
    | some templ => do
        let pos ← cvMatchPositions m image templ
        let (t, dets, omitted) ← findCharsLoop m image font rest text
        pure (t, pos.map (fun p => ⟨c, p.1, p.2⟩) ++ dets, omitted)

/-- Python slice `l[a : b]` for `0 ≤ a ≤ b`. -/
def listSlice (l : List Char) (a b : Nat) : List Char :=
  (l.drop a).take (b - a)

/-- Python list indexing `l[i]` for `i ≥ 0`: `IndexError` when out of
range. -/
def pyIndex {α : Type} (l : List α) (i : Nat) : Except PyError α :=
  match l.get? i with
  | some v => .ok v
  | none => .error .indexError

/-- Python `s[-1]`: last element, `IndexError` on the empty sequence. -/
def pyLast {α : Type} (l : List α) : Except PyError α :=
  match l.getLast? with
  | some v => .ok v
  | none => .error .indexError

/-- `font[c]` with Python semantics: `KeyError` when absent. -/
def pyLookupFont (font : Font) (c : Char) : Except PyError Img :=
  match lookupFont font c with
  | some t => .ok t
  | none => .error .keyError

/-- One iteration of the scan `for index, _ in enumerate(haystack)`: on a
full slice match, build the bounding rectangle from the first and last
matched detections and the last character's template shape, and append it.
(The `index += len(word)` in the source is dead: `index` is the loop
variable and is overwritten by the next iteration.) -/
def scanStep (font : Font) (rect : Rect) (char_list : List Detection)
    (haystack word : List Char) (acc : List Rect) (index : Nat) :
    Except PyError (List Rect) :=
  if listSlice haystack index (index + word.length) = word then do
    let d ← pyIndex char_list index
    let lastc ← pyLast word
    let templ ← pyLookupFont font lastc
    let dlast ← pyIndex char_list (index + word.length - 1)
    let width : Int := (dlast.x : Int) - (d.x : Int) + (templ.width : Int)
    pure (acc ++ [⟨(d.x : Int) + rect.left, (d.y : Int) + rect.top, width,
                   (templ.height : Int)⟩])
  else
    pure acc

/-- The per-word scan of `find_text`: strip spaces from the word, then test
every start offset of the haystack, appending one rectangle per full
match. -/
def scanWord (font : Font) (rect : Rect) (char_list : List Detection)
    (haystack : List Char) (word0 : List Char) (acc : List Rect) :
    Except PyError (List Rect) :=
  let word := word0.filter (fun a => a ≠ ' ')
  (List.range haystack.length).foldlM
    (scanStep font rect char_list haystack word) acc

/-- `if isinstance(text, str): text = [text]`. -/
def targetsList : Targets → List (List Char)
  | .one s => [s]
  | .many ss => ss

/-- `find_text(text, rect, font, color)`: isolate the region image, match
each distinct target character (stripping characters missing from the font
and emitting a diagnostic), sort the detections into reading order, form
the haystack string, and scan each (possibly reduced) target word over it.
Returns the found rectangles together with the list of omitted characters
(the non-fatal diagnostics). -/
def find_text (env : Env) (text : Targets) (rect : Rect) (font : Font)
    (color : ColorSpec) : Except PyError (List Rect × List Char) := do
  let image := filteredImage env rect color
  let chars := targetChars text
  let (text2, pooled, omitted) ← findCharsLoop env.matcher image font chars text
  let char_list := sortDetections pooled
  let haystack := char_list.map Detection.c
  let words_found ← (targetsList text2).foldlM
    (fun acc w => scanWord font rect char_list haystack w acc) []
  pure (words_found, omitted)

/-! ### Concrete scenarios

Glyph templates are small constant bitmaps with distinct pixel values so
that the abstract matcher can tell them apart; the matcher oracles below
return exactly the detection sets of the scenarios in the specification. -/

/-- 10×14 glyph template for 'A' (width 10, height 14). -/
def glyphA : Img := ⟨List.replicate 14 (List.replicate 10 1)⟩

/-- 10×14 glyph template for 'B'. -/
def glyphB : Img := ⟨List.replicate 14 (List.replicate 10 2)⟩

/-- 10×14 glyph template for 'C'. -/
def glyphC : Img := ⟨List.replicate 14 (List.replicate 10 3)⟩

/-- A 30×20 (width×height) region image. -/
def abImage : Img := ⟨List.replicate 20 (List.replicate 30 0)⟩

/-- Font with glyphs 'A' and 'B' only. -/
def abFont : Font := [('A', glyphA), ('B', glyphB)]

/-- Matcher for the scenario "'A' at (5,5), 'B' at (16,5)". -/
def abMatcher : Matcher :=
  ⟨fun _ t => if t = glyphA then [(5, 5)] else if t = glyphB then [(16, 5)] else []⟩

/-- Environment whose screenshot and color isolation produce the given
image, with the given matcher. -/
def mkEnv (m : Matcher) (img : Img) : Env :=
  ⟨m, fun _ => img, fun _ _ => img⟩

/-- The AB-scenario environment. -/
def abEnv : Env := mkEnv abMatcher abImage

/-- A region whose origin is (100, 200). -/
def abRect : Rect := ⟨100, 200, 30, 20⟩

/-- Arbitrary color argument (opaque to the core). -/
def aColor : ColorSpec := ⟨0⟩

/-! ### Helper lemmas -/

/-- A successful slice comparison of a non-empty word keeps the match inside
the haystack: `haystack[i : i + len(word)] == word` forces
`i + len(word) ≤ len(haystack)` because a Python slice truncates at the end
of the sequence. -/
theorem slice_match_length_le {haystack word : List Char} {index : Nat}
    (hw : word ≠ []) (h : listSlice haystack index (index + word.length) = word) :
    index + word.length ≤ haystack.length := by
  have hlen := congrArg List.length h
  simp only [listSlice, List.length_take, List.length_drop] at hlen
  have hw' : word.length ≠ 0 := fun h0 => hw (List.eq_nil_of_length_eq_zero h0)
  omega

/-- Reduction of a successful `Except` bind. -/
theorem except_bind_ok {ε α β : Type} (a : α) (f : α → Except ε β) :
    (Except.ok (ε := ε) a >>= f) = f a := rfl

/-- Reduction of a failed `Except` bind. -/
theorem except_bind_error {ε α β : Type} (e : ε) (f : α → Except ε β) :
    (Except.error (α := α) e >>= f) = Except.error e := rfl

/-- `pure` on `Except` is `Except.ok`. -/
theorem except_pure {ε α : Type} (a : α) :
    (pure a : Except ε α) = Except.ok a := rfl

/-- Reduction of one scan step on a full slice match: all four lookups
succeed and the rectangle built from the first and last matched detections
is appended. -/
theorem scanStep_match_eq (font : Font) (rect : Rect) (acc : List Rect)
    {char_list : List Detection} {haystack word : List Char}
    {index : Nat} {d dlast : Detection} {templ : Img} {lastc : Char}
    (h1 : listSlice haystack index (index + word.length) = word)
    (h2 : char_list[index]? = some d)
    (h3 : word.getLast? = some lastc)
    (h4 : lookupFont font lastc = some templ)
    (h5 : char_list[index + word.length - 1]? = some dlast) :
    scanStep font rect char_list haystack word acc index =
      .ok (acc ++ [⟨(d.x : Int) + rect.left, (d.y : Int) + rect.top,
                   (dlast.x : Int) - (d.x : Int) + (templ.width : Int),
                   (templ.height : Int)⟩]) := by
  unfold scanStep
  rw [if_pos h1]
  simp only [pyIndex, pyLast, pyLookupFont, List.get?_eq_getElem?, h2, h3, h4,
    h5, except_bind_ok, except_pure]

/-- Reduction of one scan step when the slice comparison fails: the
accumulator is returned unchanged. -/
theorem scanStep_nomatch {font : Font} {rect : Rect}
    {char_list : List Detection} {haystack word : List Char} {acc : List Rect}
    {index : Nat}
    (h1 : listSlice haystack index (index + word.length) ≠ word) :
    scanStep font rect char_list haystack word acc index = .ok acc := by
  unfold scanStep
  rw [if_neg h1]
  rfl

/-! ### Claim theorems -/

/-- Claim C9: whenever the slice comparison
`haystack[index : index + len(word)] == word` succeeds for a non-empty
word, the list accesses `char_list[index]` and
`char_list[index + len(word) - 1]` used to build the rectangle are within
the bounds of the detection list, so rectangle construction never indexes
past the end. -/
theorem match_indices_in_bounds :
    ∀ (char_list : List Detection) (haystack word : List Char) (index : Nat),
      word ≠ [] →
      haystack.length = char_list.length →
      listSlice haystack index (index + word.length) = word →
      index + word.length ≤ char_list.length ∧
      char_list[index]?.isSome = true ∧
      char_list[index + word.length - 1]?.isSome = true := by
  intro char_list haystack word index hw hlen h
  have hle := slice_match_length_le hw h
  have hw' : word.length ≠ 0 := fun h0 => hw (List.eq_nil_of_length_eq_zero h0)
  refine ⟨by omega, ?_, ?_⟩
  · rw [List.getElem?_eq_getElem (by omega)]; rfl
  · rw [List.getElem?_eq_getElem (by omega)]; rfl

/-- Witness for C9 at the AB scenario: the match of "AB" at offset 0 in
haystack "AB" over a two-detection list is in bounds. -/
theorem match_indices_in_bounds_witness :
    0 + (['A', 'B'] : List Char).length ≤
      ([⟨'A', 5, 5⟩, ⟨'B', 16, 5⟩] : List Detection).length ∧
    ([⟨'A', 5, 5⟩, ⟨'B', 16, 5⟩] : List Detection)[0]?.isSome = true ∧
    ([⟨'A', 5, 5⟩, ⟨'B', 16, 5⟩] :
      List Detection)[0 + (['A', 'B'] : List Char).length - 1]?.isSome = true :=
  match_indices_in_bounds [⟨'A', 5, 5⟩, ⟨'B', 16, 5⟩] ['A', 'B'] ['A', 'B'] 0
    (by decide) (by decide) (by decide)

/-- Claim C1: each full substring match yields a bounding rectangle with
left = x of the first matched Detection plus the region's left origin,
top = y of that Detection plus the region's top origin,
width = x of the last matched Detection minus the untranslated left plus
the pixel width of the last character's glyph template, and height = the
template height; in the concrete scenario with 'A' (10×14) at (5,5) and
'B' (10×14) at (16,5), `find_text("AB", ...)` returns exactly one
rectangle `(5 + region.left, 5 + region.top, 21, 14)`. -/
theorem find_text_match_rectangle :
    (∀ (font : Font) (rect : Rect) (char_list : List Detection)
       (haystack word : List Char) (acc : List Rect) (index : Nat)
       (d dlast : Detection) (templ : Img) (lastc : Char),
       listSlice haystack index (index + word.length) = word →
       char_list[index]? = some d →
       word.getLast? = some lastc →
       lookupFont font lastc = some templ →
       char_list[index + word.length - 1]? = some dlast →
       scanStep font rect char_list haystack word acc index =
         .ok (acc ++ [⟨(d.x : Int) + rect.left, (d.y : Int) + rect.top,
                      (dlast.x : Int) - (d.x : Int) + (templ.width : Int),
                      (templ.height : Int)⟩]))
    ∧ find_text abEnv (.one ['A', 'B']) abRect abFont aColor =
        .ok ([⟨5 + abRect.left, 5 + abRect.top, 21, 14⟩], []) := by
  constructor
  · intro font rect char_list haystack word acc index d dlast templ lastc
      h1 h2 h3 h4 h5
    exact scanStep_match_eq font rect acc h1 h2 h3 h4 h5
  · rfl

/-- Witness for C1: the match step at offset 0 of the AB scenario produces
the rectangle (105, 205, 21, 14). -/
theorem find_text_match_rectangle_witness :
    scanStep abFont abRect [⟨'A', 5, 5⟩, ⟨'B', 16, 5⟩] ['A', 'B'] ['A', 'B'] [] 0 =
      .ok ([] ++ [⟨((5 : Nat) : Int) + abRect.left, ((5 : Nat) : Int) + abRect.top,
                  ((16 : Nat) : Int) - ((5 : Nat) : Int) + ((glyphB.width : Nat) : Int),
                  ((glyphB.height : Nat) : Int)⟩]) :=
  find_text_match_rectangle.1 abFont abRect [⟨'A', 5, 5⟩, ⟨'B', 16, 5⟩]
    ['A', 'B'] ['A', 'B'] [] 0 ⟨'A', 5, 5⟩ ⟨'B', 16, 5⟩ glyphB 'B'
    (by rfl) (by rfl) (by rfl) (by rfl) (by rfl)

/-- Specification-side description of the pooled detections of
`extract_text`: for every font entry except the space character and the
excluded characters, one detection per matcher position, in font order. -/
def poolDetections (m : Matcher) (image : Img) (font : Font)
    (exclude : List Char) : List Detection :=
  (font.filter (fun kv => !(kv.1 == ' ') && !(decide (kv.1 ∈ exclude)))).flatMap
    (fun kv => (m.locate image kv.2).map (fun p => ⟨kv.1, p.1, p.2⟩))

/-- When every considered glyph template fits inside the image, the
character-collection loop of `extract_text` succeeds and produces exactly
the specification-side pool. -/
theorem extractLoop_eq_pool (m : Matcher) (image : Img) (exclude : List Char) :
    ∀ font : Font,
      (∀ kv ∈ font, kv.1 ≠ ' ' → kv.1 ∉ exclude →
        kv.2.height ≤ image.height ∧ kv.2.width ≤ image.width) →
      extractLoop m image exclude font = .ok (poolDetections m image font exclude)
  | [], _ => rfl
  | (key, templ) :: rest, h => by
    have hrest := extractLoop_eq_pool m image exclude rest
      (fun kv hkv => h kv (List.mem_cons_of_mem _ hkv))
    by_cases hk : key = ' ' ∨ key ∈ exclude
    · have hfilter : ((fun kv : Char × Img =>
          !(kv.1 == ' ') && !(decide (kv.1 ∈ exclude))) (key, templ)) = false := by
        rcases hk with h1 | h1 <;> simp [h1]
      unfold extractLoop
      rw [if_pos hk]
      simp only [poolDetections] at hrest ⊢
      rw [List.filter_cons_of_neg (by simp [hfilter])]
      exact hrest
    · push_neg at hk
      have hfit := h (key, templ) (List.mem_cons_self _ _) hk.1 hk.2
      have hfilter : ((fun kv : Char × Img =>
          !(kv.1 == ' ') && !(decide (kv.1 ∈ exclude))) (key, templ)) = true := by
        simp [hk.1, hk.2]
      have hmatch : cvMatchPositions m image templ = .ok (m.locate image templ) := by
        unfold cvMatchPositions
        rw [if_pos (by simp only [Bool.and_eq_true, decide_eq_true_eq]; exact hfit)]
      unfold extractLoop
      rw [if_neg (not_or.mpr hk), hmatch, except_bind_ok, hrest, except_bind_ok,
        except_pure]
      simp only [poolDetections]
      rw [List.filter_cons_of_pos (by simp [hfilter]), List.flatMap_cons]

/-- Claim C2: for every font, color filter and excluded-character list,
`extract_text` runs the glyph matcher for every character key of the font
except the space character and the excluded characters, pools all
detections, and returns exactly the concatenation (no separators) of the
detected characters in sorted order; when no glyph produces a detection it
returns the empty string.  (The hypothesis that every considered template
fits the image rules out the `cv2.error` path, which is the subject of
claim C5.) -/
theorem extract_text_is_sorted_pool :
    ∀ (env : Env) (rect : Rect) (font : Font) (color : ColorSpec)
      (exclude : List Char),
      (∀ kv ∈ font, kv.1 ≠ ' ' → kv.1 ∉ exclude →
        kv.2.height ≤ (filteredImage env rect color).height ∧
        kv.2.width ≤ (filteredImage env rect color).width) →
      extract_text env rect font color exclude =
        .ok ((sortDetections (poolDetections env.matcher
          (filteredImage env rect color) font exclude)).map Detection.c) ∧
      (poolDetections env.matcher (filteredImage env rect color) font exclude = [] →
        extract_text env rect font color exclude = .ok []) := by
  intro env rect font color exclude hfit
  have hloop := extractLoop_eq_pool env.matcher (filteredImage env rect color)
    exclude font hfit
  constructor
  · simp only [extract_text, hloop, except_bind_ok, except_pure]
  · intro hempty
    simp only [extract_text, hloop, except_bind_ok, except_pure, hempty]
    rfl

/-- Witness for C2 at the AB scenario: both glyphs fit the 30×20 image and
the extracted string is "AB". -/
theorem extract_text_is_sorted_pool_witness :
    extract_text abEnv abRect abFont aColor [] =
      .ok ((sortDetections (poolDetections abEnv.matcher
        (filteredImage abEnv abRect aColor) abFont [])).map Detection.c) ∧
    (poolDetections abEnv.matcher (filteredImage abEnv abRect aColor) abFont [] = [] →
      extract_text abEnv abRect abFont aColor [] = .ok []) :=
  extract_text_is_sorted_pool abEnv abRect abFont aColor [] (by decide)

/-- The comparison `detle` spelled out as a proposition on the `(y, x)`
keys. -/
theorem detle_iff {a b : Detection} :
    detle a b ↔ (a.y < b.y ∨ (a.y = b.y ∧ a.x ≤ b.x)) := by
  simp [detle, detLe, Bool.or_eq_true, Bool.and_eq_true, decide_eq_true_eq,
    beq_iff_eq]

instance : IsTotal Detection detle :=
  ⟨fun a b => by
    rw [detle_iff, detle_iff]
    omega⟩

instance : IsTrans Detection detle :=
  ⟨fun a b c hab hbc => by
    rw [detle_iff] at *
    omega⟩

/-- The font `[B, A]`: same glyphs as `abFont` in the opposite insertion
order, so the pooled detections arrive in the opposite order. -/
def fontBA : Font := [('B', glyphB), ('A', glyphA)]

/-- Matcher for the ordering scenario: one glyph at (x=0, y=0) and one at
(x=20, y=0). -/
def orderMatcher : Matcher :=
  ⟨fun _ t => if t = glyphA then [(0, 0)] else if t = glyphB then [(20, 0)] else []⟩

/-- Environment for the ordering scenario. -/
def orderEnv : Env := mkEnv orderMatcher abImage

/-- Claim C3: the detection pool is ordered with a stable sort keyed
primarily on y (ascending) and secondarily on x (ascending): the sort used
by both `extract_text` and `find_text` is sorted under the two-key order,
permutes its input, and is stable (order-respecting pairs keep their
relative order); for an image with two glyphs at (0,0) and (20,0),
`extract_text` returns the two characters left-to-right regardless of the
order in which the per-glyph matcher pooled the detections. -/
theorem detection_ordering :
    (∀ l : List Detection, (sortDetections l).Pairwise
        (fun a b => a.y < b.y ∨ (a.y = b.y ∧ a.x ≤ b.x)))
    ∧ (∀ l : List Detection, (sortDetections l).Perm l)
    ∧ (∀ (a b : Detection) (l : List Detection),
        a.y < b.y ∨ (a.y = b.y ∧ a.x ≤ b.x) → [a, b].Sublist l →
        [a, b].Sublist (sortDetections l))
    ∧ extract_text orderEnv abRect abFont aColor [] = .ok ['A', 'B']
    ∧ extract_text orderEnv abRect fontBA aColor [] = .ok ['A', 'B'] := by
  refine ⟨?_, ?_, ?_, by rfl, by rfl⟩
  · intro l
    exact (List.sorted_insertionSort detle l).imp (fun h => detle_iff.mp h)
  · intro l
    exact List.perm_insertionSort detle l
  · intro a b l hab hsub
    exact List.pair_sublist_insertionSort (detle_iff.mpr hab) hsub

/-- Witness for C3: a tied pair (equal y and x) in input order is kept in
that order by the sort. -/
theorem detection_ordering_witness :
    [(⟨'X', 3, 7⟩ : Detection), ⟨'Y', 3, 7⟩].Sublist
      (sortDetections [⟨'X', 3, 7⟩, ⟨'Y', 3, 7⟩]) :=
  detection_ordering.2.2.1 ⟨'X', 3, 7⟩ ⟨'Y', 3, 7⟩ [⟨'X', 3, 7⟩, ⟨'Y', 3, 7⟩]
    (by decide) (List.Sublist.refl _)

/-! Scenario for the missing-character claim: a font with glyphs
'E', 'B', 'R', 'A' (8 wide × 10 high) but no 'Z', and an image whose
detections read "EBRA" on one row. -/

/-- 8×10 glyph template for 'E'. -/
def zGlyphE : Img := ⟨List.replicate 10 (List.replicate 8 4)⟩

/-- 8×10 glyph template for 'B'. -/
def zGlyphB : Img := ⟨List.replicate 10 (List.replicate 8 5)⟩

/-- 8×10 glyph template for 'R'. -/
def zGlyphR : Img := ⟨List.replicate 10 (List.replicate 8 6)⟩

/-- 8×10 glyph template for 'A'. -/
def zGlyphA : Img := ⟨List.replicate 10 (List.replicate 8 7)⟩

/-- Font without 'Z'. -/
def zFont : Font := [('E', zGlyphE), ('B', zGlyphB), ('R', zGlyphR), ('A', zGlyphA)]

/-- A 40×10 region image. -/
def zImage : Img := ⟨List.replicate 10 (List.replicate 40 0)⟩

/-- Matcher locating "EBRA" at x = 0, 10, 20, 30 on row 0. -/
def zMatcher : Matcher :=
  ⟨fun _ t =>
    if t = zGlyphE then [(0, 0)]
    else if t = zGlyphB then [(10, 0)]
    else if t = zGlyphR then [(20, 0)]
    else if t = zGlyphA then [(30, 0)]
    else []⟩

/-- Environment for the missing-character scenario. -/
def zEnv : Env := mkEnv zMatcher zImage

/-- A region whose origin is (1000, 2000). -/
def zRect : Rect := ⟨1000, 2000, 40, 10⟩

/-- Counterexample to C4 as stated: with targets given as a *list* of
strings, a character absent from the font is not stripped — the code calls
`.replace` on the list object, which raises `AttributeError`, so the claim
that `find_text` proceeds without raising for both input shapes is false. -/
theorem list_target_missing_char_raises :
    find_text zEnv (.many [['Z', 'E', 'B', 'R', 'A']]) zRect zFont aColor =
      .error .attributeError := by rfl

/-- Claim C4 (amended): when `targets` is a single string, every character
absent from the font is stripped from it, a non-fatal diagnostic is
emitted, and the search proceeds with the reduced target without raising
(for the font missing 'Z' and target "ZEBRA", the search degrades to
"EBRA" and returns its rectangle plus the 'Z' diagnostic); but when
`targets` is a list of strings, a missing character makes the code call
`.replace` on the list, which raises `AttributeError`. -/
theorem missing_char_stripped_for_string_targets :
    (∀ (c : Char) (s : List Char),
       stripChar c (.one s) = .ok (.one (s.filter (fun a => a ≠ c))))
    ∧ (∀ (c : Char) (ss : List (List Char)),
       stripChar c (.many ss) = .error .attributeError)
    ∧ find_text zEnv (.one ['Z', 'E', 'B', 'R', 'A']) zRect zFont aColor =
        .ok ([⟨1000, 2000, 38, 10⟩], ['Z']) :=
  ⟨fun _ _ => rfl, fun _ _ => rfl, by rfl⟩

/-! Scenario for the degenerate-template claim: a 20-wide × 5-high image
with a 10-wide × 14-high glyph: the template is taller than the image but
not narrower in both dimensions, so `cv2.matchTemplate` raises. -/

/-- A 20×5 (width×height) region image, smaller than the 10×14 glyph in
height only. -/
def degImage : Img := ⟨List.replicate 5 (List.replicate 20 0)⟩

/-- Font containing only the 10×14 glyph 'A'. -/
def degFont : Font := [('A', glyphA)]

/-- Environment for the degenerate-template scenario. -/
def degEnv : Env := mkEnv abMatcher degImage

/-- The condition under which the modelled `cv2.matchTemplate` raises: the
template does not fit inside the image, and the image does not fit inside
the template either. -/
def cvRaises (image t : Img) : Bool :=
  !(t.height ≤ image.height && t.width ≤ image.width) &&
    !(image.height ≤ t.height && image.width ≤ t.width)

/-- The modelled `cv2.matchTemplate` fails exactly under `cvRaises`. -/
theorem cvMatchPositions_error_iff (m : Matcher) (image t : Img) :
    cvMatchPositions m image t = .error PyError.cvError ↔
      cvRaises image t = true := by
  unfold cvMatchPositions cvRaises
  by_cases h1 : (t.height ≤ image.height && t.width ≤ image.width) = true
  · simp [h1]
  · by_cases h2 : (image.height ≤ t.height && image.width ≤ t.width) = true
    · simp [h1, h2]
    · simp [h1, h2]

/-- A bind followed by `pure` fails exactly when the first action fails. -/
theorem except_bind_pure_error {ε α β : Type} (x : Except ε α) (f : α → β)
    (e : ε) : (x >>= fun a => pure (f a)) = .error e ↔ x = .error e := by
  cases x <;> simp [except_bind_ok, except_bind_error, except_pure]

/-- The character-collection loop of `extract_text` fails (necessarily with
`cv2.error`) exactly when some considered glyph template is degenerate for
the image. -/
theorem extractLoop_error_iff (m : Matcher) (image : Img) (exclude : List Char) :
    ∀ font : Font,
      (extractLoop m image exclude font = .error PyError.cvError ↔
        ∃ kv ∈ font, (kv.1 ≠ ' ' ∧ kv.1 ∉ exclude) ∧ cvRaises image kv.2 = true)
  | [] => by simp [extractLoop]
  | (key, templ) :: rest => by
    have ih := extractLoop_error_iff m image exclude rest
    unfold extractLoop
    by_cases hk : key = ' ' ∨ key ∈ exclude
    · rw [if_pos hk, ih]
      constructor
      · rintro ⟨kv, hm, hc⟩
        exact ⟨kv, List.mem_cons_of_mem _ hm, hc⟩
      · rintro ⟨kv, hm, hc⟩
        rcases List.mem_cons.mp hm with heq | hm2
        · exfalso
          subst heq
          tauto
        · exact ⟨kv, hm2, hc⟩
    · rw [if_neg hk]
      by_cases hraise : cvRaises image templ = true
      · rw [(cvMatchPositions_error_iff m image templ).mpr hraise,
          except_bind_error]
        constructor
        · intro _
          exact ⟨(key, templ), List.mem_cons_self _ _,
            ⟨(not_or.mp hk).1, (not_or.mp hk).2⟩, hraise⟩
        · intro _
          rfl
      · have hok : ∃ pos, cvMatchPositions m image templ = .ok pos := by
          unfold cvMatchPositions
          by_cases h1 : (templ.height ≤ image.height && templ.width ≤ image.width) = true
          · exact ⟨_, by rw [if_pos h1]⟩
          · by_cases h2 : (image.height ≤ templ.height && image.width ≤ templ.width) = true
            · exact ⟨_, by rw [if_neg h1, if_pos h2]⟩
            · exfalso
              apply hraise
              unfold cvRaises
              simp only [Bool.and_eq_true, decide_eq_true_eq, not_and] at h1 h2
              simp only [Bool.and_eq_true, Bool.not_eq_true', Bool.and_eq_false_iff,
                decide_eq_false_iff_not, decide_eq_true_eq, not_le]
              omega
        obtain ⟨pos, hpos⟩ := hok
        rw [hpos, except_bind_ok]
        have hstep : (extractLoop m image exclude rest >>= fun tailDets =>
            pure (pos.map (fun p => (⟨key, p.1, p.2⟩ : Detection)) ++ tailDets)) =
              .error PyError.cvError ↔
            extractLoop m image exclude rest = .error PyError.cvError :=
          except_bind_pure_error _ _ _
        rw [hstep, ih]
        constructor
        · rintro ⟨kv, hm, hc⟩
          exact ⟨kv, List.mem_cons_of_mem _ hm, hc⟩
        · rintro ⟨kv, hm, hc⟩
          rcases List.mem_cons.mp hm with heq | hm2
          · exfalso
            subst heq
            exact hraise hc.2
          · exact ⟨kv, hm2, hc⟩

/-- Counterexample to C5 as stated: a glyph template larger than the image
in one dimension is not skipped — `extract_text` propagates the `cv2.error`
raised by `cv2.matchTemplate` instead of letting the glyph contribute zero
detections. -/
theorem oversized_template_raises :
    extract_text degEnv abRect degFont aColor [] = .error .cvError := by rfl

/-- Claim C5 (amended): a glyph whose template exceeds the (filtered)
region image is not skipped: `extract_text` fails with `cv2.error` exactly
when some considered glyph is degenerate for the image (template not
fitting inside the image, image not fitting inside the template), and
`find_text` likewise propagates the error. -/
theorem oversized_template_not_skipped :
    (∀ (env : Env) (rect : Rect) (font : Font) (color : ColorSpec)
       (ex : List Char),
       (extract_text env rect font color ex = .error PyError.cvError ↔
         ∃ kv ∈ font, (kv.1 ≠ ' ' ∧ kv.1 ∉ ex) ∧
           cvRaises (filteredImage env rect color) kv.2 = true))
    ∧ find_text degEnv (.one ['A']) abRect degFont aColor = .error .cvError := by
  refine ⟨?_, by rfl⟩
  intro env rect font color ex
  rw [show extract_text env rect font color ex =
    (extractLoop env.matcher (filteredImage env rect color) ex font >>=
      fun char_list => pure ((sortDetections char_list).map Detection.c)) from rfl]
  rw [except_bind_pure_error]
  exact extractLoop_error_iff _ _ _ font

/-- The rectangle the scan builds for a match of `word` at offset `index`,
as a total function (the fallback values are irrelevant: the scan lemma's
hypotheses keep every access in bounds). -/
def rectAt (font : Font) (rect : Rect) (char_list : List Detection)
    (word : List Char) (index : Nat) : Rect :=
  let d := char_list.getD index ⟨' ', 0, 0⟩
  let dlast := char_list.getD (index + word.length - 1) ⟨' ', 0, 0⟩
  let templ := (lookupFont font (word.getLastD ' ')).getD ⟨[]⟩
  ⟨(d.x : Int) + rect.left, (d.y : Int) + rect.top,
   (dlast.x : Int) - (d.x : Int) + (templ.width : Int), (templ.height : Int)⟩

/-- The start offsets at which the slice comparison with `word` succeeds. -/
def matchOffsets (haystack word : List Char) : List Nat :=
  (List.range haystack.length).filter
    (fun i => listSlice haystack i (i + word.length) == word)

/-- The scan fold appends exactly one rectangle per matching offset, in
offset order, for any list of offsets within the haystack. -/
theorem scanFold_eq (font : Font) (rect : Rect) (char_list : List Detection)
    (haystack word : List Char)
    (hw : word ≠ [])
    (hlen : haystack.length = char_list.length)
    (hlast : (lookupFont font (word.getLastD ' ')).isSome = true) :
    ∀ (idxs : List Nat) (acc : List Rect),
      idxs.foldlM (scanStep font rect char_list haystack word) acc =
        .ok (acc ++ (idxs.filter
          (fun i => listSlice haystack i (i + word.length) == word)).map
          (rectAt font rect char_list word))
  | [], acc => by simp [except_pure]
  | i :: idxs, acc => by
    have ih := scanFold_eq font rect char_list haystack word hw hlen hlast idxs
    rw [List.foldlM_cons]
    by_cases hmatch : listSlice haystack i (i + word.length) = word
    · have hle := slice_match_length_le hw hmatch
      have hw' : word.length ≠ 0 := fun h0 => hw (List.eq_nil_of_length_eq_zero h0)
      have hi : i < char_list.length := by omega
      have hilast : i + word.length - 1 < char_list.length := by omega
      obtain ⟨lc, hlc⟩ := Option.isSome_iff_exists.mp (List.getLast?_isSome.mpr hw)
      have hlcD : word.getLastD ' ' = lc := by
        rw [List.getLastD_eq_getLast?, hlc]
        rfl
      obtain ⟨tp, htp⟩ := Option.isSome_iff_exists.mp hlast
      rw [hlcD] at htp
      have hr : rectAt font rect char_list word i =
          ⟨((char_list.get ⟨i, hi⟩).x : Int) + rect.left,
           ((char_list.get ⟨i, hi⟩).y : Int) + rect.top,
           ((char_list.get ⟨i + word.length - 1, hilast⟩).x : Int) -
             ((char_list.get ⟨i, hi⟩).x : Int) + (tp.width : Int),
           (tp.height : Int)⟩ := by
        rw [rectAt]
        simp only [List.getD_eq_getElem?_getD, List.getElem?_eq_getElem hi,
          List.getElem?_eq_getElem hilast, hlcD, htp, Option.getD_some]
        rfl
      have hstep := scanStep_match_eq font rect acc
        hmatch (List.getElem?_eq_getElem hi) hlc htp
        (List.getElem?_eq_getElem hilast)
      rw [hstep, except_bind_ok, ih, List.filter_cons_of_pos (by simp [hmatch]),
        List.map_cons, hr, List.append_assoc]
      rfl
    · rw [scanStep_nomatch hmatch, except_bind_ok, ih,
        List.filter_cons_of_neg (by simp [hmatch])]

/-! Scenario for the adjacent-duplicates claim: an image containing "AA",
the two 'A' glyphs adjacent at (5,5) and (16,5). -/

/-- Font containing only the 10×14 glyph 'A'. -/
def aaFont : Font := [('A', glyphA)]

/-- Matcher locating 'A' at (5,5) and (16,5). -/
def aaMatcher : Matcher :=
  ⟨fun _ t => if t = glyphA then [(5, 5), (16, 5)] else []⟩

/-- Environment for the adjacent-duplicates scenario. -/
def aaEnv : Env := mkEnv aaMatcher abImage

/-- Claim C6: for every target word the scan tests every start offset of
the haystack and appends one rectangle per full match, without
deduplicating, merging or skipping past a matched span; for an image
containing exactly "AA" with the two 'A' glyphs adjacent,
`find_text("AA", ...)` returns exactly one rectangle spanning both
glyphs. -/
theorem scan_appends_one_rect_per_match :
    (∀ (font : Font) (rect : Rect) (char_list : List Detection)
       (haystack word0 : List Char) (acc : List Rect),
       word0.filter (fun a => a ≠ ' ') ≠ [] →
       haystack.length = char_list.length →
       (lookupFont font
         ((word0.filter (fun a => a ≠ ' ')).getLastD ' ')).isSome = true →
       scanWord font rect char_list haystack word0 acc =
         .ok (acc ++ (matchOffsets haystack
             (word0.filter (fun a => a ≠ ' '))).map
           (rectAt font rect char_list (word0.filter (fun a => a ≠ ' ')))))
    ∧ find_text aaEnv (.one ['A', 'A']) abRect aaFont aColor =
        .ok ([⟨105, 205, 21, 14⟩], []) := by
  refine ⟨?_, by rfl⟩
  intro font rect char_list haystack word0 acc hw hlen hlast
  rw [scanWord, matchOffsets]
  exact scanFold_eq font rect char_list haystack _ hw hlen hlast
    (List.range haystack.length) acc

/-- Witness for C6 at the AA scenario: the scan of "AA" over the haystack
"AA" appends the single spanning rectangle. -/
theorem scan_appends_one_rect_per_match_witness :
    scanWord aaFont abRect [⟨'A', 5, 5⟩, ⟨'A', 16, 5⟩] ['A', 'A'] ['A', 'A'] [] =
      .ok ([] ++ (matchOffsets ['A', 'A']
          ((['A', 'A'] : List Char).filter (fun a => a ≠ ' '))).map
        (rectAt aaFont abRect [⟨'A', 5, 5⟩, ⟨'A', 16, 5⟩]
          ((['A', 'A'] : List Char).filter (fun a => a ≠ ' ')))) :=
  scan_appends_one_rect_per_match.1 aaFont abRect
    [⟨'A', 5, 5⟩, ⟨'A', 16, 5⟩] ['A', 'A'] ['A', 'A'] []
    (by decide) (by decide) (by decide)

/-- The modelled `cv2.matchTemplate` output depends only on the matcher's
locate behavior. -/
theorem cvMatchPositions_congr {m1 m2 : Matcher}
    (hm : ∀ a b, m1.locate a b = m2.locate a b) (image t : Img) :
    cvMatchPositions m1 image t = cvMatchPositions m2 image t := by
  unfold cvMatchPositions
  split_ifs <;> simp [hm]

/-- The character-collection loop of `extract_text` depends only on the
matcher's locate behavior. -/
theorem extractLoop_congr {m1 m2 : Matcher} (image : Img) (ex : List Char)
    (hm : ∀ a b, m1.locate a b = m2.locate a b) :
    ∀ font : Font, extractLoop m1 image ex font = extractLoop m2 image ex font
  | [] => rfl
  | (key, templ) :: rest => by
    have ih := extractLoop_congr image ex hm rest
    unfold extractLoop
    by_cases hk : key = ' ' ∨ key ∈ ex
    · rw [if_pos hk, if_pos hk]
      exact ih
    · rw [if_neg hk, if_neg hk]
      simp only [cvMatchPositions_congr hm image templ, ih]

/-- An environment observationally equal to `abEnv` but built differently
(the color isolation is the identity instead of a constant). -/
def abEnv2 : Env := ⟨abMatcher, fun _ => abImage, fun i _ => i⟩

/-- Claim C7: `extract_text` is deterministic: its output is a function of
the filtered region image, the matcher's (deterministic) detection
behavior, the font and the excluded characters alone, so two calls on
identical inputs — in particular two calls through environments with the
same observable behavior — yield identical output strings. -/
theorem extract_text_deterministic :
    ∀ (env1 env2 : Env) (rect1 rect2 : Rect) (font : Font)
      (color1 color2 : ColorSpec) (ex : List Char),
      filteredImage env1 rect1 color1 = filteredImage env2 rect2 color2 →
      (∀ a b, env1.matcher.locate a b = env2.matcher.locate a b) →
      extract_text env1 rect1 font color1 ex =
        extract_text env2 rect2 font color2 ex := by
  intro env1 env2 rect1 rect2 font color1 color2 ex himg hm
  simp only [extract_text]
  rw [himg, extractLoop_congr (filteredImage env2 rect2 color2) ex hm font]

/-- Witness for C7: the two observationally equal environments produce the
same extraction. -/
theorem extract_text_deterministic_witness :
    extract_text abEnv abRect abFont aColor [] =
      extract_text abEnv2 abRect abFont aColor [] :=
  extract_text_deterministic abEnv abEnv2 abRect abRect abFont aColor aColor []
    (by rfl) (fun _ _ => rfl)

/-- Every detection pooled by the per-character loop of `find_text` carries
one of the scanned target characters. -/
theorem findCharsLoop_chars (m : Matcher) (image : Img) (font : Font) :
    ∀ (chars : List Char) (text text2 : Targets) (dets : List Detection)
      (omitted : List Char),
      findCharsLoop m image font chars text = .ok (text2, dets, omitted) →
      ∀ d ∈ dets, d.c ∈ chars
  | [], text, text2, dets, omitted, h => by
    unfold findCharsLoop at h
    cases h
    intro d hd
    cases hd
  | c :: rest, text, text2, dets, omitted, h => by
    unfold findCharsLoop at h
    cases hlf : lookupFont font c with
    | none =>
      cases hsc : stripChar c text with
      | error e =>
        simp only [hlf, hsc, except_bind_error] at h
        exact Except.noConfusion h
      | ok text3 =>
        cases hrec : findCharsLoop m image font rest text3 with
        | error e =>
          simp only [hlf, hsc, hrec, except_bind_ok, except_bind_error] at h
          exact Except.noConfusion h
        | ok res =>
          obtain ⟨t2, dets2, om2⟩ := res
          simp only [hlf, hsc, hrec, except_bind_ok, except_pure,
            Except.ok.injEq, Prod.mk.injEq] at h
          obtain ⟨-, hdets, -⟩ := h
          subst hdets
          intro d hd
          exact List.mem_cons_of_mem _
            (findCharsLoop_chars m image font rest text3 t2 dets2 om2 hrec d hd)
    | some templ =>
      cases hcv : cvMatchPositions m image templ with
      | error e =>
        simp only [hlf, hcv, except_bind_error] at h
        exact Except.noConfusion h
      | ok pos =>
        cases hrec : findCharsLoop m image font rest text with
        | error e =>
          simp only [hlf, hcv, hrec, except_bind_ok, except_bind_error] at h
          exact Except.noConfusion h
        | ok res =>
          obtain ⟨t2, dets2, om2⟩ := res
          simp only [hlf, hcv, hrec, except_bind_ok, except_pure,
            Except.ok.injEq, Prod.mk.injEq] at h
          obtain ⟨-, hdets, -⟩ := h
          subst hdets
          intro d hd
          rcases List.mem_append.mp hd with hmem | hmem
          · obtain ⟨p, hp, hpe⟩ := List.mem_map.mp hmem
            rw [← hpe]
            exact List.mem_cons_self _ _
          · exact List.mem_cons_of_mem _
              (findCharsLoop_chars m image font rest text t2 dets2 om2 hrec d hmem)

/-! Scenario for the haystack-restriction claim: a font with 'A', 'B', 'C'
and an image whose full text reads "ACB"; the target "AB" is still found
because 'C' is never matched. -/

/-- Font with glyphs 'A', 'B' and 'C'. -/
def acbFont : Font := [('A', glyphA), ('B', glyphB), ('C', glyphC)]

/-- Matcher locating 'A' at (0,0), 'C' at (10,0) and 'B' at (20,0). -/
def acbMatcher : Matcher :=
  ⟨fun _ t =>
    if t = glyphA then [(0, 0)]
    else if t = glyphC then [(10, 0)]
    else if t = glyphB then [(20, 0)]
    else []⟩

/-- Environment for the haystack-restriction scenario. -/
def acbEnv : Env := mkEnv acbMatcher abImage

/-- Claim C8: only the distinct characters of the targets (and present in
the font) are matched, so the haystack contains no other characters; a
target is therefore found whenever its characters occur in reading order
among detections of target characters, even if foreign glyphs lie between
them in the image: on an image whose full text extracts to "ACB",
`find_text("AB", ...)` still reports a match. -/
theorem haystack_only_target_chars :
    (∀ (m : Matcher) (image : Img) (font : Font) (chars : List Char)
       (text text2 : Targets) (dets : List Detection) (omitted : List Char),
       findCharsLoop m image font chars text = .ok (text2, dets, omitted) →
       ∀ d ∈ dets, d.c ∈ chars)
    ∧ extract_text acbEnv abRect acbFont aColor [] = .ok ['A', 'C', 'B']
    ∧ find_text acbEnv (.one ['A', 'B']) abRect acbFont aColor =
        .ok ([⟨100, 200, 30, 14⟩], []) :=
  ⟨fun m image font => findCharsLoop_chars m image font, by rfl, by rfl⟩

/-- Witness for C8: the 'B' detection pooled in the ACB scenario carries a
target character. -/
theorem haystack_only_target_chars_witness :
    Detection.c ⟨'B', 20, 0⟩ ∈ (['A', 'B'] : List Char) :=
  haystack_only_target_chars.1 acbMatcher abImage acbFont ['A', 'B']
    (.one ['A', 'B']) (.one ['A', 'B']) [⟨'A', 0, 0⟩, ⟨'B', 20, 0⟩] []
    (by rfl) ⟨'B', 20, 0⟩ (by decide)

/-- Claim C10: `find_text` raises an uncaught exception for some input: a
target list containing a space-only string together with a target whose
characters are detected reduces the space-only target to the empty string,
which matches at every offset, and the `word[-1]` lookup on the empty
string raises `IndexError`. -/
theorem empty_word_target_raises :
    find_text abEnv (.many [['A'], [' ']]) abRect abFont aColor =
      .error .indexError := by rfl

end OCR
